import Mathlib

/-!
Shallow embedding of `src/main.py` (find_location_API): an HTTP endpoint that
geocodes an address, tiles the resulting bounding box into a grid, fans out six
category searches per grid point through a paginated places API, deduplicates
the results by place identifier, enriches each kept place with an area name via
reverse geocoding, and assembles the response.

Python floats are modelled as exact rationals (ℚ); external network services
(geocode, places_nearby, reverse_geocode) are modelled as oracle functions;
Python exceptions are modelled with `Except`; wall-clock timing and logging are
not modelled.
-/

namespace FindLocation

/-- A latitude/longitude pair, as the Python dicts `{'lat': .., 'lng': ..}`. -/
structure Point where
  lat : ℚ
  lng : ℚ
deriving DecidableEq, Repr

/-- A bounding box, as the Python dict `{'northeast': .., 'southwest': ..}`. -/
structure BoundingBox where
  northeast : Point
  southwest : Point
deriving DecidableEq, Repr

/-- Latitude grid spacing from `main.py`: `lat_step = 0.009`. -/
def lat_step : ℚ := 9 / 1000

/-- Longitude grid spacing from `main.py`: `lng_step = 0.011`. -/
def lng_step : ℚ := 11 / 1000

/-- Embedding of `get_area_grid_points` (main.py lines 51-75): the number of
steps per axis is `math.ceil(span / step)` (an empty `range` when the ceiling
is zero or negative), and each candidate point `southwest + (i*lat_step,
j*lng_step)` is kept only if it does not exceed `northeast` on either axis. -/
def get_area_grid_points (bounds : BoundingBox) : List Point :=
  let lat_points : ℤ := ⌈(bounds.northeast.lat - bounds.southwest.lat) / lat_step⌉
  let lng_points : ℤ := ⌈(bounds.northeast.lng - bounds.southwest.lng) / lng_step⌉
  (List.range lat_points.toNat).flatMap fun (i : ℕ) =>
    (List.range lng_points.toNat).filterMap fun (j : ℕ) =>
      if bounds.southwest.lat + (i : ℚ) * lat_step ≤ bounds.northeast.lat ∧
          bounds.southwest.lng + (j : ℚ) * lng_step ≤ bounds.northeast.lng then
        some ⟨bounds.southwest.lat + (i : ℚ) * lat_step,
              bounds.southwest.lng + (j : ℚ) * lng_step⟩
      else none

/-- Helper: any point produced by the grid generator lies within the box; the
upper bounds come from the code's own filter and the lower bounds from the
offsets `i*lat_step`, `j*lng_step` being nonnegative. -/
lemma grid_point_mem (bounds : BoundingBox) (p : Point)
    (hp : p ∈ get_area_grid_points bounds) :
    bounds.southwest.lat ≤ p.lat ∧ p.lat ≤ bounds.northeast.lat ∧
      bounds.southwest.lng ≤ p.lng ∧ p.lng ≤ bounds.northeast.lng := by
  obtain ⟨i, hi, hmem⟩ := List.mem_flatMap.1 hp
  obtain ⟨j, hj, hij⟩ := List.mem_filterMap.1 hmem
  split at hij
  case isTrue h =>
    cases hij
    refine ⟨?_, h.1, ?_, h.2⟩
    · show bounds.southwest.lat ≤ bounds.southwest.lat + (i : ℚ) * lat_step
      have hnn : (0 : ℚ) ≤ (i : ℚ) * lat_step := by
        apply mul_nonneg (Nat.cast_nonneg i)
        norm_num [lat_step]
      linarith
    · show bounds.southwest.lng ≤ bounds.southwest.lng + (j : ℚ) * lng_step
      have hnn : (0 : ℚ) ≤ (j : ℚ) * lng_step := by
        apply mul_nonneg (Nat.cast_nonneg j)
        norm_num [lng_step]
      linarith
  case isFalse => cases hij

/-- Helper: the box spanning exactly one grid step from the origin yields
exactly the single point (0, 0). -/
lemma grid_unit_box :
    get_area_grid_points ⟨⟨9 / 1000, 11 / 1000⟩, ⟨0, 0⟩⟩ = [⟨0, 0⟩] := by
  have h1 : ((9 : ℚ) / 1000 - 0) / lat_step = 1 := by norm_num [lat_step]
  have h2 : ((11 : ℚ) / 1000 - 0) / lng_step = 1 := by norm_num [lng_step]
  simp [get_area_grid_points, h1, h2, lat_step, lng_step, List.range_succ]

/-- Helper: a zero-area box generates no grid points, since
`math.ceil(0 / step) = 0` gives two empty `range` loops. -/
lemma grid_degenerate (bounds : BoundingBox)
    (h : bounds.northeast = bounds.southwest) :
    get_area_grid_points bounds = [] := by
  simp [get_area_grid_points, h]

/-- C9: for every bounding box with northeast ≥ southwest component-wise,
every grid point produced by `get_area_grid_points` satisfies
southwest ≤ point ≤ northeast component-wise in latitude and longitude. -/
theorem grid_points_within_bounds (bounds : BoundingBox)
    (hlat : bounds.southwest.lat ≤ bounds.northeast.lat)
    (hlng : bounds.southwest.lng ≤ bounds.northeast.lng) :
    ∀ p ∈ get_area_grid_points bounds,
      bounds.southwest.lat ≤ p.lat ∧ p.lat ≤ bounds.northeast.lat ∧
        bounds.southwest.lng ≤ p.lng ∧ p.lng ≤ bounds.northeast.lng :=
  fun p hp => grid_point_mem bounds p hp

/-- Witness for C9: a concrete box spanning one grid step and its concrete
grid point (0, 0). -/
theorem grid_points_within_bounds_witness :
    ((0 : ℚ) ≤ (9 : ℚ) / 1000 ∧ (0 : ℚ) ≤ (11 : ℚ) / 1000) ∧
      ((0 : ℚ) ≤ (0 : ℚ) ∧ (0 : ℚ) ≤ (9 : ℚ) / 1000 ∧
        (0 : ℚ) ≤ (0 : ℚ) ∧ (0 : ℚ) ≤ (11 : ℚ) / 1000) :=
  ⟨⟨by norm_num, by norm_num⟩,
    grid_points_within_bounds ⟨⟨9 / 1000, 11 / 1000⟩, ⟨0, 0⟩⟩ (by norm_num)
      (by norm_num) ⟨0, 0⟩ (by rw [grid_unit_box]; exact List.mem_singleton.2 rfl)⟩

/-- C2 counterexample: for the zero-area box at (35, 139) the code produces
zero grid points, not the single point the claim asserts, because
`math.ceil(0 / step)` is `0` and both `range` loops are empty. -/
theorem zero_area_box_counterexample :
    (get_area_grid_points ⟨⟨35, 139⟩, ⟨35, 139⟩⟩).length = 0 ∧
      get_area_grid_points ⟨⟨35, 139⟩, ⟨35, 139⟩⟩ ≠ [⟨35, 139⟩] := by
  rw [grid_degenerate ⟨⟨35, 139⟩, ⟨35, 139⟩⟩ rfl]
  exact ⟨rfl, by simp⟩

/-- C2 amended: for every zero-area bounding box (northeast equal to
southwest, as produced by a point geocode), `get_area_grid_points` returns
the empty list — no grid point at all is produced. -/
theorem zero_area_box_yields_no_points (bounds : BoundingBox)
    (h : bounds.northeast = bounds.southwest) :
    get_area_grid_points bounds = [] := by
  simp [get_area_grid_points, h]

/-- Witness for the amended C2 at a concrete zero-area box. -/
theorem zero_area_box_yields_no_points_witness :
    get_area_grid_points ⟨⟨35, 139⟩, ⟨35, 139⟩⟩ = [] :=
  zero_area_box_yields_no_points ⟨⟨35, 139⟩, ⟨35, 139⟩⟩ rfl

/-- A raw place record from the places service. `place_id` is the opaque
identifier (always present in practice; the dedup code subscripts it
directly), while `name`, `vicinity` and `geometry.location` may be absent
from the dict, modelled with `Option`. -/
structure RawPlace where
  place_id : String
  name : Option String
  vicinity : Option String
  location : Option Point
deriving DecidableEq, Repr

/-- A `places_nearby` response dict: an optional `results` list (the code
guards each access with `if 'results' in response`) and an optional
continuation token. -/
structure Response where
  results : Option (List RawPlace)
  next_page_token : Option String
deriving DecidableEq, Repr

/-- `MAX_RETRIES = 3` from `get_all_places`. -/
def MAX_RETRIES : ℕ := 3

/-- `MAX_PAGES = 3` from `get_all_places`. -/
def MAX_PAGES : ℕ := 3

/-- The inner retry loop of `get_all_places` (main.py lines 105-121): attempt
the continuation call with the current token until it succeeds or the retry
budget is exhausted. `cont` is the oracle for `gmaps.places_nearby(location,
page_token=..)`, taking a global call counter (so successive attempts may
behave differently) and the token. Returns the new response when some attempt
succeeded (`none` when all failed, in which case the Python loop keeps the old
response object) together with the list of tokens attempted, one entry per
call made. -/
def retry_page (cont : ℕ → String → Except String Response) (callIdx : ℕ)
    (tok : String) : ℕ → Option Response × List String
  | 0 => (none, [])
  | n + 1 =>
    match cont callIdx tok with
    | .ok r => (some r, [tok])
    | .error _ =>
      ((retry_page cont (callIdx + 1) tok n).1,
        tok :: (retry_page cont (callIdx + 1) tok n).2)

/-- The outer pagination loop of `get_all_places` (main.py lines 100-121):
while the current response still has a `next_page_token` and
`page_count < MAX_PAGES`, run the retry loop; on success switch to the new
response and collect its results, on exhausted retries keep the old response
(whose stale token is then re-attempted by the next iteration, as in the
Python code). `fuel` is `MAX_PAGES - page_count`. Returns collected results
and the token-attempt log. -/
def page_loop (cont : ℕ → String → Except String Response) :
    ℕ → Response → ℕ → List RawPlace × List String
  | 0, _, _ => ([], [])
  | fuel + 1, resp, callIdx =>
    match resp.next_page_token with
    | none => ([], [])
    | some tok =>
      match retry_page cont callIdx tok MAX_RETRIES with
      | (some newResp, log) =>
        ((newResp.results.getD []) ++
            (page_loop cont fuel newResp (callIdx + log.length)).1,
          log ++ (page_loop cont fuel newResp (callIdx + log.length)).2)
      | (none, log) =>
        ((page_loop cont fuel resp (callIdx + log.length)).1,
          log ++ (page_loop cont fuel resp (callIdx + log.length)).2)

/-- The external `gmaps.places_nearby` service for one (location, keyword,
type, radius) query: the initial call's outcome and the continuation-call
oracle. A raised exception is an `.error`. -/
structure PagedOracle where
  initial : Except String Response
  cont : ℕ → String → Except String Response

/-- Embedding of `get_all_places` (main.py lines 77-126), instrumented: it
also returns the log of continuation tokens attempted. A failing initial call
is caught by the outer `try` and yields `[]`; otherwise the first page's
results are collected and pagination starts with `page_count = 1`, so the
loop body runs at most `MAX_PAGES - 1` times. The function is total: no
exception escapes, matching the Python function which catches everything. -/
def get_all_places_run (initial : Except String Response)
    (cont : ℕ → String → Except String Response) : List RawPlace × List String :=
  match initial with
  | .error _ => ([], [])
  | .ok resp =>
    ((resp.results.getD []) ++ (page_loop cont (MAX_PAGES - 1) resp 0).1,
      (page_loop cont (MAX_PAGES - 1) resp 0).2)

/-- `get_all_places` proper: the list of places it returns. -/
def get_all_places (o : PagedOracle) : List RawPlace :=
  (get_all_places_run o.initial o.cont).1

/-- A continuation oracle that fails (raises) on every call. -/
def contAlwaysFails (cont : ℕ → String → Except String Response) : Prop :=
  ∀ i t r, cont i t ≠ .ok r

/-- Helper: when every continuation call fails, the retry loop never obtains
a new response. -/
lemma retry_page_fails (cont : ℕ → String → Except String Response)
    (h : contAlwaysFails cont) (idx : ℕ) (tok : String) (n : ℕ) :
    (retry_page cont idx tok n).1 = none := by
  induction n generalizing idx with
  | zero => rfl
  | succ n ih =>
    unfold retry_page
    cases hc : cont idx tok with
    | ok r => exact absurd hc (h idx tok r)
    | error e => simp [ih]

/-- Helper: when every continuation call fails, the pagination loop collects
nothing. -/
lemma page_loop_fails (cont : ℕ → String → Except String Response)
    (h : contAlwaysFails cont) (fuel : ℕ) (resp : Response) (idx : ℕ) :
    (page_loop cont fuel resp idx).1 = [] := by
  induction fuel generalizing resp idx with
  | zero => rfl
  | succ fuel ih =>
    unfold page_loop
    cases ht : resp.next_page_token with
    | none => rfl
    | some tok =>
      rcases hrp : retry_page cont idx tok MAX_RETRIES with ⟨o, log⟩
      have ho : o = none := by
        have h1 := retry_page_fails cont h idx tok MAX_RETRIES
        rw [hrp] at h1
        exact h1
      subst ho
      simp only [hrp]
      simp [ih]

/-- Helper: the retry loop makes at most `n` attempts. -/
lemma retry_page_log_le (cont : ℕ → String → Except String Response)
    (idx : ℕ) (tok : String) (n : ℕ) :
    (retry_page cont idx tok n).2.length ≤ n := by
  induction n generalizing idx with
  | zero => simp [retry_page]
  | succ n ih =>
    unfold retry_page
    cases hc : cont idx tok with
    | ok r => simp
    | error e =>
      have := ih (idx + 1)
      simp only [List.length_cons]
      omega

/-- Helper: the pagination loop makes at most `fuel * MAX_RETRIES`
continuation attempts. -/
lemma page_loop_log_le (cont : ℕ → String → Except String Response)
    (fuel : ℕ) (resp : Response) (idx : ℕ) :
    (page_loop cont fuel resp idx).2.length ≤ fuel * MAX_RETRIES := by
  induction fuel generalizing resp idx with
  | zero => simp [page_loop]
  | succ fuel ih =>
    unfold page_loop
    cases ht : resp.next_page_token with
    | none => simp
    | some tok =>
      rcases hrp : retry_page cont idx tok MAX_RETRIES with ⟨o, log⟩
      have hlog : log.length ≤ MAX_RETRIES := by
        have h1 := retry_page_log_le cont idx tok MAX_RETRIES
        rw [hrp] at h1
        exact h1
      cases o with
      | some newResp =>
        have h2 := ih newResp (idx + log.length)
        simp only [hrp, List.length_append]
        calc log.length + (page_loop cont fuel newResp (idx + log.length)).2.length
            ≤ MAX_RETRIES + fuel * MAX_RETRIES := Nat.add_le_add hlog h2
          _ = (fuel + 1) * MAX_RETRIES := by ring
      | none =>
        have h2 := ih resp (idx + log.length)
        simp only [hrp, List.length_append]
        calc log.length + (page_loop cont fuel resp (idx + log.length)).2.length
            ≤ MAX_RETRIES + fuel * MAX_RETRIES := Nat.add_le_add hlog h2
          _ = (fuel + 1) * MAX_RETRIES := by ring

/-- C7: for every initial response carrying a continuation token, if every
continuation call fails, `get_all_places` returns exactly the first page's
results; the function is total, so no exception escapes. -/
theorem first_page_kept_when_all_continuations_fail (o : PagedOracle)
    (resp : Response) (r0 : List RawPlace) (tok : String)
    (hini : o.initial = .ok resp)
    (hres : resp.results = some r0)
    (htok : resp.next_page_token = some tok)
    (hfail : contAlwaysFails o.cont) :
    get_all_places o = r0 := by
  unfold get_all_places get_all_places_run
  rw [hini]
  simp [page_loop_fails o.cont hfail, hres]

/-- A sample well-formed raw place. -/
def sample_place (pid : String) : RawPlace :=
  ⟨pid, some "name", some "addr", some ⟨0, 0⟩⟩

/-- A first-page response with one result and a continuation token. -/
def stub_first_page : Response :=
  ⟨some [sample_place "P1"], some "T"⟩

/-- A continuation oracle that raises on every call. -/
def failing_cont : ℕ → String → Except String Response :=
  fun _ _ => .error "err"

/-- Witness for C7 on the concrete always-failing stub. -/
theorem first_page_kept_witness :
    get_all_places ⟨.ok stub_first_page, failing_cont⟩ = [sample_place "P1"] :=
  first_page_kept_when_all_continuations_fail
    ⟨.ok stub_first_page, failing_cont⟩ stub_first_page [sample_place "P1"] "T"
    rfl rfl rfl (fun _ _ _ h => Except.noConfusion h)

/-- C6 counterexample: with an always-failing continuation oracle, the single
continuation token "T" is attempted 6 times, not at most 3: after the first
page slot exhausts its 3 retries, the stale token remains in the old response
and the second page slot retries the very same token 3 more times. -/
theorem continuation_token_six_attempts_counterexample :
    (get_all_places_run (.ok stub_first_page) failing_cont).2.count "T" = 6 ∧
      ¬ ((get_all_places_run (.ok stub_first_page) failing_cont).2.count "T" ≤ 3) := by
  constructor
  · rfl
  · decide

/-- C6 amended: each page slot's retry loop attempts the continuation call at
most `MAX_RETRIES = 3` times, and a whole `get_all_places` run makes at most
`(MAX_PAGES - 1) * MAX_RETRIES = 6` continuation attempts (the same stale
token may span two page slots); whatever happens to continuations, the first
page's results are always kept at the front of the returned list. -/
theorem continuation_retry_bounds (o : PagedOracle) (resp : Response)
    (r0 : List RawPlace)
    (hini : o.initial = .ok resp) (hres : resp.results = some r0) :
    (∀ idx tok, (retry_page o.cont idx tok MAX_RETRIES).2.length ≤ MAX_RETRIES) ∧
      (get_all_places_run o.initial o.cont).2.length ≤ (MAX_PAGES - 1) * MAX_RETRIES ∧
      (get_all_places o).take r0.length = r0 := by
  refine ⟨fun idx tok => retry_page_log_le o.cont idx tok MAX_RETRIES, ?_, ?_⟩
  · rw [hini]
    unfold get_all_places_run
    exact page_loop_log_le o.cont (MAX_PAGES - 1) resp 0
  · unfold get_all_places get_all_places_run
    rw [hini]
    simp [hres, List.take_left]

/-- Witness for the amended C6 on the concrete always-failing stub. -/
theorem continuation_retry_bounds_witness :
    (retry_page failing_cont 0 "T" MAX_RETRIES).2.length ≤ MAX_RETRIES ∧
      (get_all_places_run (.ok stub_first_page) failing_cont).2.length ≤
        (MAX_PAGES - 1) * MAX_RETRIES ∧
      (get_all_places ⟨.ok stub_first_page, failing_cont⟩).take 1 = [sample_place "P1"] :=
  let h := continuation_retry_bounds ⟨.ok stub_first_page, failing_cont⟩
    stub_first_page [sample_place "P1"] rfl rfl
  ⟨h.1 0 "T", h.2.1, h.2.2⟩

/-- The place identifiers of a list of raw places, in order. -/
def placeIds (l : List RawPlace) : List String :=
  l.map RawPlace.place_id

/-- One deduplication for-loop of `get_place_info` (e.g. main.py lines
220-223): walk the accumulator; a place whose `place_id` is not yet in
`seen_ids` is kept and its identifier recorded, otherwise it is dropped.
Returns the kept places (in order) and the updated `seen_ids` set. -/
def dedup_category : List RawPlace → Finset String → List RawPlace × Finset String
  | [], seen => ([], seen)
  | p :: ps, seen =>
    if p.place_id ∈ seen then
      dedup_category ps seen
    else
      (p :: (dedup_category ps (insert p.place_id seen)).1,
        (dedup_category ps (insert p.place_id seen)).2)

/-- The six deduplication loops run in sequence over a shared `seen_ids`
set, generalized to any list of category accumulators (the code runs it on
exactly six, in the fixed order general, izakaya, family, ramen, soba-udon,
cafe). -/
def dedup_chain : List (List RawPlace) → Finset String → List (List RawPlace) × Finset String
  | [], seen => ([], seen)
  | l :: ls, seen =>
    ((dedup_category l seen).1 :: (dedup_chain ls (dedup_category l seen).2).1,
      (dedup_chain ls (dedup_category l seen).2).2)

/-- Helper: after one dedup loop, the seen set has absorbed all identifiers
of the processed accumulator. -/
lemma dedup_category_seen (ps : List RawPlace) (seen : Finset String) :
    (dedup_category ps seen).2 = seen ∪ (placeIds ps).toFinset := by
  induction ps generalizing seen with
  | nil => simp [dedup_category, placeIds]
  | cons p ps ih =>
    unfold dedup_category
    split
    case isTrue h =>
      rw [ih seen]
      ext y
      simp only [placeIds, List.map_cons, List.toFinset_cons, Finset.mem_union,
        Finset.mem_insert, List.mem_toFinset]
      constructor
      · rintro (hy | hy)
        · exact Or.inl hy
        · exact Or.inr (Or.inr hy)
      · rintro (hy | rfl | hy)
        · exact Or.inl hy
        · exact Or.inl h
        · exact Or.inr hy
    case isFalse h =>
      rw [ih (insert p.place_id seen)]
      ext y
      simp only [placeIds, List.map_cons, List.toFinset_cons, Finset.mem_union,
        Finset.mem_insert, List.mem_toFinset]
      tauto

/-- Helper: an identifier is among a dedup loop's kept places iff it is in
the input accumulator and was not already seen. -/
lemma dedup_category_mem (x : String) (ps : List RawPlace) (seen : Finset String) :
    x ∈ placeIds (dedup_category ps seen).1 ↔ x ∈ placeIds ps ∧ x ∉ seen := by
  induction ps generalizing seen with
  | nil => simp [dedup_category, placeIds]
  | cons p ps ih =>
    unfold dedup_category
    split
    case isTrue h =>
      rw [ih seen]
      simp only [placeIds, List.map_cons, List.mem_cons]
      constructor
      · rintro ⟨hy, hns⟩
        exact ⟨Or.inr hy, hns⟩
      · rintro ⟨rfl | hy, hns⟩
        · exact absurd h hns
        · exact ⟨hy, hns⟩
    case isFalse h =>
      have ih' := ih (insert p.place_id seen)
      simp only [placeIds, List.map_cons, List.mem_cons, Finset.mem_insert] at ih' ⊢
      rw [ih']
      constructor
      · rintro (rfl | ⟨hy, hni⟩)
        · exact ⟨Or.inl rfl, h⟩
        · exact ⟨Or.inr hy, fun hx => hni (Or.inr hx)⟩
      · rintro ⟨rfl | hy, hns⟩
        · exact Or.inl rfl
        · by_cases hxp : x = p.place_id
          · exact Or.inl hxp
          · exact Or.inr ⟨hy, fun hx => hx.elim hxp hns⟩


/-- Helper: a dedup loop keeps each identifier at most once. -/
lemma dedup_category_nodup (ps : List RawPlace) (seen : Finset String) :
    (placeIds (dedup_category ps seen).1).Nodup := by
  induction ps generalizing seen with
  | nil => simp [dedup_category, placeIds]
  | cons p ps ih =>
    unfold dedup_category
    split
    case isTrue h => exact ih seen
    case isFalse h =>
      simp only [placeIds, List.map_cons, List.nodup_cons]
      refine ⟨fun hc => ?_, ih (insert p.place_id seen)⟩
      have := (dedup_category_mem p.place_id ps (insert p.place_id seen)).1 hc
      exact this.2 (Finset.mem_insert_self p.place_id seen)

/-- Helper: each identifier newly recorded in the seen set corresponds to
exactly one kept place, so the seen set grows by exactly the number of kept
places. -/
lemma dedup_category_card (ps : List RawPlace) (seen : Finset String) :
    (dedup_category ps seen).2.card = seen.card + (dedup_category ps seen).1.length := by
  induction ps generalizing seen with
  | nil => simp [dedup_category]
  | cons p ps ih =>
    unfold dedup_category
    split
    case isTrue h => exact ih seen
    case isFalse h =>
      rw [ih (insert p.place_id seen), Finset.card_insert_of_not_mem h]
      simp only [List.length_cons]
      omega

/-- Helper: the final seen-set size equals the prior size plus the total
number of places kept across all chained dedup loops. -/
lemma dedup_chain_card (L : List (List RawPlace)) (seen : Finset String) :
    (dedup_chain L seen).2.card =
      seen.card + (((dedup_chain L seen).1.map List.length).sum) := by
  induction L generalizing seen with
  | nil => simp [dedup_chain]
  | cons l ls ih =>
    unfold dedup_chain
    rw [ih (dedup_category l seen).2, dedup_category_card l seen]
    simp only [List.map_cons, List.sum_cons]
    omega

/-- Helper: an identifier is kept in the j-th deduplicated list iff it occurs
in the j-th accumulator, was not initially seen, and occurs in no earlier
accumulator. Stated with `getD` so it holds for every index. -/
lemma dedup_chain_mem (L : List (List RawPlace)) (seen : Finset String)
    (x : String) (j : ℕ) :
    x ∈ placeIds ((dedup_chain L seen).1.getD j []) ↔
      x ∈ placeIds (L.getD j []) ∧ x ∉ seen ∧
        ∀ i, i < j → x ∉ placeIds (L.getD i []) := by
  induction L generalizing seen j with
  | nil => simp [dedup_chain, placeIds]
  | cons l ls ih =>
    unfold dedup_chain
    cases j with
    | zero =>
      simp only [List.getD_cons_zero, dedup_category_mem]
      constructor
      · rintro ⟨h1, h2⟩
        exact ⟨h1, h2, fun i hi => absurd hi (Nat.not_lt_zero i)⟩
      · rintro ⟨h1, h2, _⟩
        exact ⟨h1, h2⟩
    | succ j =>
      simp only [List.getD_cons_succ]
      rw [ih (dedup_category l seen).2 j, dedup_category_seen l seen]
      simp only [Finset.mem_union, List.mem_toFinset]
      constructor
      · rintro ⟨h1, h2, h3⟩
        refine ⟨h1, fun hs => h2 (Or.inl hs), fun i hi => ?_⟩
        cases i with
        | zero =>
          intro hc
          exact h2 (Or.inr (by simpa using hc))
        | succ i =>
          intro hc
          exact h3 i (Nat.lt_of_succ_lt_succ hi) (by simpa using hc)
      · rintro ⟨h1, h2, h3⟩
        refine ⟨h1, fun hs => ?_, fun i hi => ?_⟩
        · rcases hs with hs | hl
          · exact h2 hs
          · exact h3 0 (Nat.succ_pos j) (by simpa using hl)
        · intro hc
          exact h3 (i + 1) (Nat.succ_lt_succ hi) (by simpa using hc)

/-- Helper: every deduplicated output list has pairwise-distinct
identifiers. -/
lemma dedup_chain_nodup (L : List (List RawPlace)) (seen : Finset String) (j : ℕ) :
    (placeIds ((dedup_chain L seen).1.getD j [])).Nodup := by
  induction L generalizing seen j with
  | nil => simp [dedup_chain, placeIds]
  | cons l ls ih =>
    unfold dedup_chain
    cases j with
    | zero => simpa using dedup_category_nodup l seen
    | succ j => simpa using ih (dedup_category l seen).2 j

/-- The six per-category accumulators of `get_place_info` (also reused for
the six deduplicated lists), in the code's fixed processing order: general
restaurants, izakaya, family restaurants, ramen, soba-udon, cafes. -/
structure Accums where
  general : List RawPlace
  izakaya : List RawPlace
  family : List RawPlace
  ramen : List RawPlace
  soba : List RawPlace
  cafes : List RawPlace
deriving DecidableEq, Repr

/-- The six deduplication loops of `get_place_info` (main.py lines 212-248):
one shared `seen_ids` set, starting empty, threaded through the six category
accumulators in their fixed order. -/
def dedup_six (a : Accums) : Accums × Finset String :=
  let d1 := dedup_category a.general ∅
  let d2 := dedup_category a.izakaya d1.2
  let d3 := dedup_category a.family d2.2
  let d4 := dedup_category a.ramen d3.2
  let d5 := dedup_category a.soba d4.2
  let d6 := dedup_category a.cafes d5.2
  (⟨d1.1, d2.1, d3.1, d4.1, d5.1, d6.1⟩, d6.2)

/-- The six accumulators as a list, in processing order. -/
def accumsList (a : Accums) : List (List RawPlace) :=
  [a.general, a.izakaya, a.family, a.ramen, a.soba, a.cafes]

/-- The six deduplicated output lists, in processing order. -/
def dedup_six_lists (a : Accums) : List (List RawPlace) :=
  [(dedup_six a).1.general, (dedup_six a).1.izakaya, (dedup_six a).1.family,
    (dedup_six a).1.ramen, (dedup_six a).1.soba, (dedup_six a).1.cafes]

/-- Helper: the six explicit dedup loops are the chain over the six
accumulators. -/
lemma dedup_six_lists_eq (a : Accums) :
    dedup_six_lists a = (dedup_chain (accumsList a) ∅).1 := rfl

/-- Helper: the final `seen_ids` set of the six loops is that of the chain. -/
lemma dedup_six_seen_eq (a : Accums) :
    (dedup_six a).2 = (dedup_chain (accumsList a) ∅).2 := rfl

/-- C4: for six category accumulators, an identifier appearing in more than
one accumulator ends up in exactly one deduplicated output list — the one of
the earliest category containing it (index `m`, the first index whose
accumulator mentions the identifier) — and every output list carries each
identifier at most once. -/
theorem dedup_assigns_earliest_category (a : Accums) (x : String) (k l m : ℕ)
    (hkl : k ≠ l)
    (hxk : x ∈ placeIds ((accumsList a).getD k []))
    (hxl : x ∈ placeIds ((accumsList a).getD l []))
    (hxm : x ∈ placeIds ((accumsList a).getD m []))
    (hmin : ∀ i, i < m → x ∉ placeIds ((accumsList a).getD i [])) :
    (∀ j, x ∈ placeIds ((dedup_six_lists a).getD j []) ↔ j = m) ∧
      ∀ j, (placeIds ((dedup_six_lists a).getD j [])).Nodup := by
  constructor
  · intro j
    rw [dedup_six_lists_eq, dedup_chain_mem]
    constructor
    · rintro ⟨h1, _, h3⟩
      rcases Nat.lt_trichotomy j m with hlt | heq | hgt
      · exact absurd h1 (hmin j hlt)
      · exact heq
      · exact absurd hxm (h3 m hgt)
    · rintro rfl
      exact ⟨hxm, Finset.not_mem_empty x, hmin⟩
  · intro j
    rw [dedup_six_lists_eq]
    exact dedup_chain_nodup (accumsList a) ∅ j

/-- A sample place with identifier "X" appearing in two accumulators. -/
def placeX : RawPlace := ⟨"X", some "x", none, none⟩

/-- A second sample place. -/
def placeY : RawPlace := ⟨"Y", some "y", none, none⟩

/-- Sample accumulators: "X" occurs both in the general list (index 0) and in
the cafes list (index 5). -/
def sample_accums : Accums := ⟨[placeX], [], [], [], [], [placeX, placeY]⟩

/-- Witness for C4: "X" is kept in the general list and dropped from the
cafes list. -/
theorem dedup_assigns_earliest_category_witness :
    ("X" ∈ placeIds ((dedup_six_lists sample_accums).getD 0 [])) ∧
      "X" ∉ placeIds ((dedup_six_lists sample_accums).getD 5 []) := by
  have h := dedup_assigns_earliest_category sample_accums "X" 0 5 0
    (by decide) (by decide) (by decide) (by decide)
    (fun i hi => absurd hi (Nat.not_lt_zero i))
  refine ⟨(h.1 0).2 rfl, fun hc => ?_⟩
  have h5 := (h.1 5).1 hc
  exact absurd h5 (by decide)

/-- One address component of a reverse-geocode result: its `long_name` and
`types` tags. -/
structure AddressComponent where
  long_name : String
  types : List String
deriving DecidableEq, Repr

/-- One reverse-geocode result: address components and a formatted address. -/
structure GeoResult where
  address_components : List AddressComponent
  formatted_address : String
deriving DecidableEq, Repr

/-- The response record `PlaceInfo` of the API. -/
structure PlaceInfo where
  name : String
  address : String
  place_type : String
  area : String
deriving DecidableEq, Repr

/-- Embedding of `get_area_name` (main.py lines 128-144). The
`reverse_geocode` oracle models `gmaps.reverse_geocode((lat, lng))`; `.error`
is a raised exception, answered with the sentinel 地域不明 by the `except`
clause. On a nonempty result list the first component tagged "sublocality"
wins; otherwise the first comma-separated segment of the formatted address
(`split(',')[0]`, which always exists, so the `headD` default is
unreachable); an empty result list falls through to the final sentinel
return. -/
def get_area_name (reverse_geocode : ℚ → ℚ → Except String (List GeoResult))
    (lat lng : ℚ) : String :=
  match reverse_geocode lat lng with
  | .error _ => "地域不明"
  | .ok [] => "地域不明"
  | .ok (r :: _) =>
    match r.address_components.find? (fun c => c.types.contains "sublocality") with
    | some c => c.long_name
    | none => (r.formatted_address.splitOn ",").headD ""

/-- Embedding of `convert_to_place_info` (main.py lines 146-163): each place
is converted inside a `try`; a `KeyError` on the required fields (`name` or
`geometry.location`) skips just that place, a missing `vicinity` falls back
to the sentinel 住所不明 via `.get`. The function is total — no exception
escapes, matching the Python `except` that logs and continues. -/
def convert_to_place_info (places : List RawPlace) (category : String)
    (reverse_geocode : ℚ → ℚ → Except String (List GeoResult)) : List PlaceInfo :=
  places.filterMap fun place =>
    match place.name, place.location with
    | some n, some loc =>
      some ⟨n, place.vicinity.getD "住所不明", category,
        get_area_name reverse_geocode loc.lat loc.lng⟩
    | _, _ => none

/-- Helper: conversion never lengthens a list (it only drops records). -/
lemma convert_length_le (places : List RawPlace) (category : String)
    (rg : ℚ → ℚ → Except String (List GeoResult)) :
    (convert_to_place_info places category rg).length ≤ places.length :=
  List.length_filterMap_le _ _

/-- C10: conversion never raises (it is a total function): the output is at
most as long as the input, a record missing `name` or `geometry` is silently
skipped while the surrounding records are converted in their original order,
and a record merely missing `vicinity` is kept with the sentinel address
住所不明. -/
theorem convert_skips_malformed (places : List RawPlace) (category : String)
    (rg : ℚ → ℚ → Except String (List GeoResult)) :
    (convert_to_place_info places category rg).length ≤ places.length ∧
      (∀ pre bad post, places = pre ++ bad :: post →
        bad.name = none ∨ bad.location = none →
        convert_to_place_info places category rg =
          convert_to_place_info pre category rg ++
            convert_to_place_info post category rg) ∧
      (∀ p n loc, p.name = some n → p.location = some loc → p.vicinity = none →
        convert_to_place_info [p] category rg =
          [⟨n, "住所不明", category, get_area_name rg loc.lat loc.lng⟩]) := by
  refine ⟨convert_length_le places category rg, ?_, ?_⟩
  · rintro pre bad post rfl hbad
    unfold convert_to_place_info
    rw [List.filterMap_append]
    congr 1
    rw [List.filterMap_cons]
    rcases hbad with h | h <;> simp [h]
  · intro p n loc hn hl hv
    unfold convert_to_place_info
    simp [hn, hl, hv]

/-- A malformed raw place (no name, no geometry). -/
def bad_place : RawPlace := ⟨"B", none, none, none⟩

/-- A well-formed raw place with no vicinity. -/
def good_place : RawPlace := ⟨"G", some "G店", none, some ⟨0, 0⟩⟩

/-- A reverse-geocode oracle that raises on every call. -/
def failing_rg : ℚ → ℚ → Except String (List GeoResult) := fun _ _ => .error "boom"

/-- Witness for C10 on a concrete malformed place followed by a well-formed
one. -/
theorem convert_skips_malformed_witness :
    (convert_to_place_info [bad_place, good_place] "カフェ" failing_rg).length ≤ 2 ∧
      convert_to_place_info [bad_place, good_place] "カフェ" failing_rg =
        convert_to_place_info [] "カフェ" failing_rg ++
          convert_to_place_info [good_place] "カフェ" failing_rg ∧
      convert_to_place_info [good_place] "カフェ" failing_rg =
        [⟨"G店", "住所不明", "カフェ", get_area_name failing_rg 0 0⟩] :=
  ⟨(convert_skips_malformed [bad_place, good_place] "カフェ" failing_rg).1,
    (convert_skips_malformed [bad_place, good_place] "カフェ" failing_rg).2.1
      [] bad_place [good_place] rfl (Or.inl rfl),
    (convert_skips_malformed [good_place] "カフェ" failing_rg).2.2
      good_place "G店" ⟨0, 0⟩ rfl rfl rfl⟩

/-- The `bounds` field of a geocode result's geometry. A point result's
geometry simply lacks the key (`absent`, on which the Python subscript
`geometry['bounds']` raises `KeyError`); `null` models a present-but-falsy
value, the only case reaching the code's `if not bounds` fallback. -/
inductive BoundsField where
  | absent
  | null
  | val (b : BoundingBox)
deriving DecidableEq, Repr

/-- The geometry of a geocode result. -/
structure Geometry where
  bounds : BoundsField
  location : Point
deriving DecidableEq, Repr

/-- One geocode result. -/
structure GeocodeResult where
  geometry : Geometry
deriving DecidableEq, Repr

/-- The request body: prefecture and city strings. -/
structure LocationRequest where
  prefecture : String
  city : String
deriving DecidableEq, Repr

/-- The response body (`processing_time`, pure wall-clock timing, is not
modelled). -/
structure LocationResponse where
  total_restaurants : ℕ
  general_restaurants : List PlaceInfo
  izakaya : List PlaceInfo
  family_restaurants : List PlaceInfo
  ramen_shops : List PlaceInfo
  soba_udon_shops : List PlaceInfo
  cafes : List PlaceInfo
deriving DecidableEq, Repr

/-- An exception raised inside the endpoint's `try` block: the explicit
`HTTPException(404, ..)` of the no-geocode-match branch, or a `KeyError`
from a dict subscript. -/
inductive Exc where
  | http (status : ℕ) (detail : String)
  | keyError (key : String)
deriving DecidableEq, Repr

/-- `str(e)` for the modelled exceptions: starlette's `HTTPException`
renders as "status: detail", a `KeyError` as the quoted key. -/
def excMessage : Exc → String
  | .http s d => toString s ++ ": " ++ d
  | .keyError k => "'" ++ k ++ "'"

/-- An HTTP error response produced by a raised `HTTPException`. -/
structure HTTPError where
  status_code : ℕ
  detail : String
deriving DecidableEq, Repr

/-- The 404 detail message of `get_place_info`. -/
def addressNotFound : String := "指定された住所が見つかりません"

/-- The external collaborators and the request for one endpoint invocation:
`geocode` models `gmaps.geocode(address)`, `nearby` models
`gmaps.places_nearby(location, keyword, type, radius)` together with its
continuation calls, `reverse_geocode` models `gmaps.reverse_geocode`. -/
structure Env where
  geocode : String → List GeocodeResult
  nearby : Point → String → String → ℚ → PagedOracle
  reverse_geocode : ℚ → ℚ → Except String (List GeoResult)
  request : LocationRequest

/-- Replace the reverse-geocode collaborator of an environment. -/
def withRG (env : Env) (rg : ℚ → ℚ → Except String (List GeoResult)) : Env :=
  ⟨env.geocode, env.nearby, rg, env.request⟩

/-- Whether the endpoint answered successfully. -/
def isOkB : Except HTTPError LocationResponse → Bool
  | .ok _ => true
  | .error _ => false

/-- The fan-out loop of `get_place_info` (main.py lines 200-208): for each
grid point, in order, extend the six category accumulators with
`get_all_places` for the six fixed (keyword, type) pairs, radius 500. -/
def category_accums (env : Env) (grid : List Point) : Accums :=
  grid.foldl
    (fun acc point =>
      ⟨acc.general ++ get_all_places (env.nearby point "飲食店" "restaurant" 500),
        acc.izakaya ++ get_all_places (env.nearby point "居酒屋" "restaurant" 500),
        acc.family ++ get_all_places (env.nearby point "ファミリーレストラン" "restaurant" 500),
        acc.ramen ++ get_all_places (env.nearby point "ラーメン" "restaurant" 500),
        acc.soba ++ get_all_places (env.nearby point "そば OR うどん" "restaurant" 500),
        acc.cafes ++ get_all_places (env.nearby point "カフェ OR 喫茶店" "cafe" 500)⟩)
    ⟨[], [], [], [], [], []⟩

/-- Embedding of main.py lines 180-185. The subscript
`geocode_result[0]['geometry']['bounds']` raises `KeyError` when the key is
absent; only a present-but-falsy value reaches the `if not bounds` fallback
that builds the degenerate box from the location point; a real box (a
nonempty dict, hence truthy) is used as is. -/
def resolve_bounds (g : Geometry) : Except Exc BoundingBox :=
  match g.bounds with
  | .absent => .error (.keyError "bounds")
  | .null => .ok ⟨g.location, g.location⟩
  | .val b => .ok b

/-- The successful tail of the endpoint (main.py lines 187-262): grid, six
category searches, six dedup loops, and the response assembly with
`total_restaurants = len(seen_ids)` and the six converted lists with their
Japanese category labels. -/
def build_response (env : Env) (bounds : BoundingBox) : LocationResponse :=
  let grid := get_area_grid_points bounds
  let acc := category_accums env grid
  let d := dedup_six acc
  ⟨d.2.card,
    convert_to_place_info d.1.general "一般飲食店" env.reverse_geocode,
    convert_to_place_info d.1.izakaya "居酒屋" env.reverse_geocode,
    convert_to_place_info d.1.family "ファミリーレストラン" env.reverse_geocode,
    convert_to_place_info d.1.ramen "ラーメン" env.reverse_geocode,
    convert_to_place_info d.1.soba "そば・うどん" env.reverse_geocode,
    convert_to_place_info d.1.cafes "カフェ" env.reverse_geocode⟩

/-- The body of the endpoint's `try` block (main.py lines 170-262): an empty
geocode result raises `HTTPException(404)`; otherwise the bounds are
resolved (possibly raising `KeyError`) and the pipeline runs to the
response. All other steps are total. -/
def get_place_info_body (env : Env) : Except Exc LocationResponse :=
  match env.geocode (env.request.prefecture ++ env.request.city) with
  | [] => .error (.http 404 addressNotFound)
  | g :: _ =>
    match resolve_bounds g.geometry with
    | .error e => .error e
    | .ok b => .ok (build_response env b)

/-- Embedding of the endpoint `get_place_info` (main.py lines 165-266). The
trailing `except Exception as e: raise HTTPException(status_code=500,
detail=str(e))` catches every exception raised in the body — including the
explicit `HTTPException(404)`, since `HTTPException` subclasses `Exception`
— and re-raises it as a 500 with `str(e)` as detail. -/
def get_place_info (env : Env) : Except HTTPError LocationResponse :=
  match get_place_info_body env with
  | .ok r => .ok r
  | .error e => .error ⟨500, excMessage e⟩

/-- Helper: a successful endpoint answer is the assembled response for some
resolved bounding box. -/
lemma get_place_info_ok_inv (env : Env) (r : LocationResponse)
    (h : get_place_info env = .ok r) :
    ∃ b : BoundingBox, r = build_response env b := by
  unfold get_place_info get_place_info_body at h
  cases hg : env.geocode (env.request.prefecture ++ env.request.city) with
  | nil =>
    rw [hg] at h
    simp at h
  | cons g gs =>
    rw [hg] at h
    cases hb : resolve_bounds g.geometry with
    | error e =>
      simp only [hb] at h
      simp at h
    | ok b =>
      simp only [hb] at h
      simp at h
      exact ⟨b, h.symm⟩

/-- C1 (code bug): when geocoding yields no match, the explicitly raised
`HTTPException(404)` is caught by the endpoint's own blanket
`except Exception` and converted into a 500 internal error, so the caller
never sees a 404. -/
theorem address_not_found_becomes_500 (env : Env)
    (h : env.geocode (env.request.prefecture ++ env.request.city) = []) :
    get_place_info env = .error ⟨500, excMessage (.http 404 addressNotFound)⟩ ∧
      ∀ d, get_place_info env ≠ .error ⟨404, d⟩ := by
  have hb : get_place_info_body env = .error (.http 404 addressNotFound) := by
    unfold get_place_info_body
    rw [h]
  constructor
  · unfold get_place_info
    rw [hb]
  · intro d hc
    unfold get_place_info at hc
    rw [hb] at hc
    simp at hc

/-- An environment whose geocoder finds nothing. -/
def env404 : Env :=
  ⟨fun _ => [], fun _ _ _ _ => ⟨.error "e", failing_cont⟩, failing_rg,
    ⟨"東京都", "千代田区"⟩⟩

/-- Witness for C1 on the concrete empty-geocode environment. -/
theorem address_not_found_becomes_500_witness :
    get_place_info env404 = .error ⟨500, excMessage (.http 404 addressNotFound)⟩ :=
  (address_not_found_becomes_500 env404 rfl).1

/-- C3 (code bug): when the first geocode result's geometry has no `bounds`
key, the subscript on main.py line 180 raises `KeyError('bounds')` before
the fallback on lines 181-185 can run, and the blanket handler surfaces it
as a 500 — the endpoint fails instead of proceeding with a degenerate
box. -/
theorem missing_bounds_key_raises (env : Env) (g : GeocodeResult)
    (gs : List GeocodeResult)
    (hg : env.geocode (env.request.prefecture ++ env.request.city) = g :: gs)
    (hb : g.geometry.bounds = .absent) :
    get_place_info env = .error ⟨500, excMessage (.keyError "bounds")⟩ := by
  unfold get_place_info get_place_info_body resolve_bounds
  rw [hg]
  simp only [hb]

/-- An environment whose geocoder returns one result without a bounds key. -/
def envNoBounds : Env :=
  ⟨fun _ => [⟨⟨.absent, ⟨0, 0⟩⟩⟩], fun _ _ _ _ => ⟨.error "e", failing_cont⟩,
    failing_rg, ⟨"東京都", "千代田区"⟩⟩

/-- Witness for C3 on the concrete bounds-less environment. -/
theorem missing_bounds_key_raises_witness :
    get_place_info envNoBounds = .error ⟨500, excMessage (.keyError "bounds")⟩ :=
  missing_bounds_key_raises envNoBounds ⟨⟨.absent, ⟨0, 0⟩⟩⟩ [] rfl rfl

/-- Helper: the final seen-set size equals the total length of the six
deduplicated lists. -/
lemma dedup_six_card (a : Accums) :
    (dedup_six a).2.card =
      ((dedup_six_lists a).map List.length).sum := by
  rw [dedup_six_seen_eq, dedup_chain_card, ← dedup_six_lists_eq]
  simp

/-- C5 amended: on every successful request, `total_restaurants` (the final
size of the shared seen-identifier set) equals the total length of the six
deduplicated lists; the payload lists are these lists after conversion,
which can only drop malformed records, so the sum of the payload list
lengths is at most `total_restaurants` (with equality exactly when no kept
record is malformed). -/
theorem response_total_counts_kept_places (env : Env) (r : LocationResponse)
    (h : get_place_info env = .ok r) :
    ∃ b : BoundingBox,
      r.total_restaurants =
        ((dedup_six_lists (category_accums env (get_area_grid_points b))).map
          List.length).sum ∧
      r.general_restaurants.length + r.izakaya.length +
          r.family_restaurants.length + r.ramen_shops.length +
          r.soba_udon_shops.length + r.cafes.length ≤
        r.total_restaurants := by
  obtain ⟨b, rfl⟩ := get_place_info_ok_inv env r h
  refine ⟨b, ?_, ?_⟩
  · unfold build_response
    dsimp only
    exact dedup_six_card (category_accums env (get_area_grid_points b))
  · unfold build_response
    dsimp only
    have hc := dedup_six_card (category_accums env (get_area_grid_points b))
    simp only [dedup_six_lists, List.map_cons, List.map_nil, List.sum_cons,
      List.sum_nil] at hc
    have h1 := convert_length_le
      (dedup_six (category_accums env (get_area_grid_points b))).1.general
      "一般飲食店" env.reverse_geocode
    have h2 := convert_length_le
      (dedup_six (category_accums env (get_area_grid_points b))).1.izakaya
      "居酒屋" env.reverse_geocode
    have h3 := convert_length_le
      (dedup_six (category_accums env (get_area_grid_points b))).1.family
      "ファミリーレストラン" env.reverse_geocode
    have h4 := convert_length_le
      (dedup_six (category_accums env (get_area_grid_points b))).1.ramen
      "ラーメン" env.reverse_geocode
    have h5 := convert_length_le
      (dedup_six (category_accums env (get_area_grid_points b))).1.soba
      "そば・うどん" env.reverse_geocode
    have h6 := convert_length_le
      (dedup_six (category_accums env (get_area_grid_points b))).1.cafes
      "カフェ" env.reverse_geocode
    omega

/-- A raw place whose `name` key is missing: the dedup loops count it, but
`convert_to_place_info` drops it. -/
def bad_name_place : RawPlace := ⟨"PID1", none, none, none⟩

/-- An environment whose geocode yields a one-grid-step box at the origin
and whose general-restaurant search finds exactly the malformed place. -/
def envC5 : Env :=
  ⟨fun _ => [⟨⟨.val ⟨⟨9 / 1000, 11 / 1000⟩, ⟨0, 0⟩⟩, ⟨0, 0⟩⟩⟩],
    fun _ kw _ _ =>
      if kw = "飲食店" then ⟨.ok ⟨some [bad_name_place], none⟩, failing_cont⟩
      else ⟨.ok ⟨some [], none⟩, failing_cont⟩,
    failing_rg, ⟨"東京都", "千代田区"⟩⟩

/-- The response the code produces for `envC5`. -/
def respC5 : LocationResponse := ⟨1, [], [], [], [], [], []⟩

/-- Helper: evaluating the endpoint on `envC5`: one place is counted but
its conversion is dropped, so every payload list is empty yet the total is
one. -/
lemma envC5_eval : get_place_info envC5 = .ok respC5 := by
  have h1 : get_place_info envC5 =
      .ok (build_response envC5 ⟨⟨9 / 1000, 11 / 1000⟩, ⟨0, 0⟩⟩) := rfl
  rw [h1]
  unfold build_response
  rw [grid_unit_box]
  rfl

/-- C5 counterexample: on the successful request of `envC5`, the returned
`total_restaurants` is 1 while the six payload lists are all empty — the
seen-set size exceeds the sum of the payload list lengths because the
malformed place was counted during dedup but dropped during conversion. -/
theorem total_vs_payload_counterexample :
    get_place_info envC5 = .ok respC5 ∧
      respC5.total_restaurants ≠
        respC5.general_restaurants.length + respC5.izakaya.length +
          respC5.family_restaurants.length + respC5.ramen_shops.length +
          respC5.soba_udon_shops.length + respC5.cafes.length :=
  ⟨envC5_eval, by decide⟩

/-- Witness for the amended C5 on the concrete environment `envC5`. -/
theorem response_total_counts_kept_places_witness :
    respC5.general_restaurants.length + respC5.izakaya.length +
        respC5.family_restaurants.length + respC5.ramen_shops.length +
        respC5.soba_udon_shops.length + respC5.cafes.length ≤
      respC5.total_restaurants := by
  obtain ⟨b, h1, h2⟩ := response_total_counts_kept_places envC5 respC5 envC5_eval
  exact h2

/-- A reverse-geocode collaborator that raises on every lookup. -/
def rgAlwaysFails (rg : ℚ → ℚ → Except String (List GeoResult)) : Prop :=
  ∀ la ln res, rg la ln ≠ .ok res

/-- Helper: with an always-raising reverse geocoder, every converted place
carries the sentinel area label. -/
lemma convert_area_sentinel (rg : ℚ → ℚ → Except String (List GeoResult))
    (hfail : rgAlwaysFails rg) (places : List RawPlace) (cat : String)
    (pi : PlaceInfo) (hpi : pi ∈ convert_to_place_info places cat rg) :
    pi.area = "地域不明" := by
  obtain ⟨p, hp, he⟩ := List.mem_filterMap.1 hpi
  cases hn : p.name with
  | none =>
    rw [hn] at he
    simp at he
  | some n =>
    cases hl : p.location with
    | none =>
      rw [hn, hl] at he
      simp at he
    | some loc =>
      rw [hn, hl] at he
      simp only [] at he
      injection he with he'
      subst he'
      show get_area_name rg loc.lat loc.lng = "地域不明"
      cases hrg : rg loc.lat loc.lng with
      | ok res => exact absurd hrg (hfail loc.lat loc.lng res)
      | error e => simp [get_area_name, hrg]

/-- Helper: whether the endpoint succeeds does not depend on the
reverse-geocode collaborator — the only failure paths (no geocode match,
missing bounds key) come before any reverse-geocode call. -/
lemma get_place_info_ok_independent_of_rg (env : Env)
    (rg : ℚ → ℚ → Except String (List GeoResult)) :
    isOkB (get_place_info (withRG env rg)) = isOkB (get_place_info env) := by
  unfold get_place_info get_place_info_body withRG
  dsimp only
  cases hg : env.geocode (env.request.prefecture ++ env.request.city) with
  | nil => simp [isOkB]
  | cons g gs =>
    cases hb : resolve_bounds g.geometry with
    | error e => simp [hb, isOkB]
    | ok b => simp [hb, isOkB]

/-- C8: `get_area_name` returns the long name of the first address component
tagged "sublocality" when one exists, else the first comma-separated segment
of the first result's formatted address, and the sentinel 地域不明 when the
lookup raises or returns no results; consequently, with an always-raising
reverse geocoder every converted place's area label is the sentinel — both
directly through `convert_to_place_info` and in every list of a successful
endpoint response — and the request's success is unaffected by the reverse
geocoder. -/
theorem area_name_resolution (rg : ℚ → ℚ → Except String (List GeoResult))
    (lat lng : ℚ) :
    (∀ r rs c, rg lat lng = .ok (r :: rs) →
      r.address_components.find? (fun k => k.types.contains "sublocality") = some c →
      get_area_name rg lat lng = c.long_name) ∧
    (∀ r rs, rg lat lng = .ok (r :: rs) →
      r.address_components.find? (fun k => k.types.contains "sublocality") = none →
      get_area_name rg lat lng = (r.formatted_address.splitOn ",").headD "") ∧
    (∀ e, rg lat lng = .error e → get_area_name rg lat lng = "地域不明") ∧
    (rg lat lng = .ok [] → get_area_name rg lat lng = "地域不明") ∧
    (rgAlwaysFails rg → ∀ places cat pi,
      pi ∈ convert_to_place_info places cat rg → pi.area = "地域不明") ∧
    (∀ env : Env, rgAlwaysFails env.reverse_geocode → ∀ r,
      get_place_info env = .ok r →
      (∀ pi ∈ r.general_restaurants, pi.area = "地域不明") ∧
      (∀ pi ∈ r.izakaya, pi.area = "地域不明") ∧
      (∀ pi ∈ r.family_restaurants, pi.area = "地域不明") ∧
      (∀ pi ∈ r.ramen_shops, pi.area = "地域不明") ∧
      (∀ pi ∈ r.soba_udon_shops, pi.area = "地域不明") ∧
      (∀ pi ∈ r.cafes, pi.area = "地域不明")) ∧
    (∀ env : Env,
      isOkB (get_place_info (withRG env rg)) = isOkB (get_place_info env)) := by
  refine ⟨?_, ?_, ?_, ?_, ?_, ?_, ?_⟩
  · intro r rs c h1 h2
    unfold get_area_name
    simp only [h1, h2]
  · intro r rs h1 h2
    unfold get_area_name
    simp only [h1, h2]
  · intro e h1
    simp [get_area_name, h1]
  · intro h1
    simp [get_area_name, h1]
  · intro hfail places cat pi hpi
    exact convert_area_sentinel rg hfail places cat pi hpi
  · intro env hfail r h
    obtain ⟨b, rfl⟩ := get_place_info_ok_inv env r h
    unfold build_response
    dsimp only
    exact ⟨fun pi hpi => convert_area_sentinel env.reverse_geocode hfail _ _ pi hpi,
      fun pi hpi => convert_area_sentinel env.reverse_geocode hfail _ _ pi hpi,
      fun pi hpi => convert_area_sentinel env.reverse_geocode hfail _ _ pi hpi,
      fun pi hpi => convert_area_sentinel env.reverse_geocode hfail _ _ pi hpi,
      fun pi hpi => convert_area_sentinel env.reverse_geocode hfail _ _ pi hpi,
      fun pi hpi => convert_area_sentinel env.reverse_geocode hfail _ _ pi hpi⟩
  · intro env
    exact get_place_info_ok_independent_of_rg env rg

/-- Witness for C8: the always-raising reverse geocoder yields the sentinel
at the origin, and swapping it into a concrete environment does not change
whether the request succeeds. -/
theorem area_name_resolution_witness :
    get_area_name failing_rg 0 0 = "地域不明" ∧
      isOkB (get_place_info (withRG env404 failing_rg)) =
        isOkB (get_place_info env404) :=
  ⟨(area_name_resolution failing_rg 0 0).2.2.1 "boom" rfl,
    (area_name_resolution failing_rg 0 0).2.2.2.2.2.2 env404⟩

end FindLocation
